import Mathlib

/-!
Verification of the `PlanAndCode` agent (`autopr/agents/plan_and_code.py`).

The agent orchestrates three external collaborators: an action service
(`run_actions_iteratively`), a diff service (`get_diff`), a commit service
(`overwrite_new_branch`, `commit`) and a publish service (`start_section`,
`end_section`, `publish_code_block`, `set_pr_description`).

The embedding is trace-based: each collaborator invocation is recorded as a
`Call` in an ordered trace, and the external services are modelled as oracles
(`Services`) whose answers may depend on the invocation index (the number of
prior calls of the same kind), so that stateful external behaviour such as a
diff service answering differently per call is representable.
-/

/-- Modelled from the spec: the issue payload carried by an issue-label event
(`event.issue`); the event model itself lives outside this fragment
(`autopr.models.events`), and this core only reads the payload opaquely. -/
structure Issue where
  payload : String
deriving DecidableEq

/-- Modelled from the spec: one entry of the Commit Plan
(`autopr.actions.utils.commit.CommitPlan`, outside this fragment):
a commit message plus an implied set of target files. -/
structure CommitPlan where
  commit_message : String
  relevant_filepaths : List String
deriving DecidableEq

/-- Modelled from the spec: the structured planning result
(`autopr.actions.utils.commit.PullRequestDescription`, outside this
fragment): title, body, and the Commit Plan. -/
structure PullRequestDescription where
  title : String
  body : String
  commits : List CommitPlan
deriving DecidableEq

/-- A value stored in the context. The python context maps string keys to
arbitrary values; the values this fragment stores or inspects are the issue
payload, a commit plan entry, the action history, and the planning result.
`other` stands for a value of any other python type, identified by its type
name, as stored by an external action. -/
inductive Value where
  | issue (i : Issue)
  | commitPlan (c : CommitPlan)
  | actionHistory (entries : List String)
  | prDescription (d : PullRequestDescription)
  | other (pyType : String)
deriving DecidableEq

/-- The name python `type(v)` would render for a context value, used in the
`TypeError` message of `create_pull_request`. -/
def Value.pyTypeName : Value → String
  | .issue _ => "Issue"
  | .commitPlan _ => "CommitPlan"
  | .actionHistory _ => "list"
  | .prDescription _ => "PullRequestDescription"
  | .other t => t

/-- `autopr.actions.base.ContextDict`: an insertion-ordered mapping from
string keys to values, embedded as an association list without duplicate-key
shadowing (python-dict update semantics live in `ContextDict.set`). -/
abbrev ContextDict := List (String × Value)

/-- Python dict lookup: first (and, under `set`, only) binding of the key. -/
def ContextDict.get (c : ContextDict) (k : String) : Option Value :=
  match c with
  | [] => none
  | (k', v) :: rest => if k' = k then some v else ContextDict.get rest k

/-- Python dict assignment: update the existing binding in place, preserving
insertion order; otherwise append a fresh binding at the end. -/
def ContextDict.set (c : ContextDict) (k : String) (v : Value) : ContextDict :=
  match c with
  | [] => [(k, v)]
  | (k', v') :: rest =>
    if k' = k then (k, v) :: rest else (k', v') :: ContextDict.set rest k v

/-- One collaborator invocation, as recorded in the trace.
`runActions` records the arguments of `action_service.run_actions_iteratively`
(with `headings`/`includeFinished` as `none` when the keyword was not passed);
the publish- and commit-service events record their arguments verbatim. -/
inductive Call where
  | startSection (text : String)
  | endSection (text : String)
  | publishCodeBlock (heading code language : String)
  | setPrDescription (title body : String)
  | overwriteNewBranch
  | commit (message : String) (push : Bool)
  | runActions (actions : List String) (ctx : ContextDict)
      (headings : Option (List (String × String)))
      (maxIterations : Nat) (includeFinished : Option Bool)
  | getDiff
deriving DecidableEq

def Call.isRunActions : Call → Bool
  | .runActions .. => true
  | _ => false

def Call.isGetDiff : Call → Bool
  | .getDiff => true
  | _ => false

def Call.isCommit : Call → Bool
  | .commit .. => true
  | _ => false

def Call.isSetPrDescription : Call → Bool
  | .setPrDescription .. => true
  | _ => false

def Call.isOverwriteNewBranch : Call → Bool
  | .overwriteNewBranch => true
  | _ => false

/-- Number of `run_actions_iteratively` invocations recorded in a trace;
used as the invocation index handed to the action-service oracle. -/
def nRunActions (tr : List Call) : Nat := (tr.filter Call.isRunActions).length

/-- Number of `get_diff` invocations recorded in a trace; used as the
invocation index handed to the diff-service oracle. -/
def nGetDiff (tr : List Call) : Nat := (tr.filter Call.isGetDiff).length

/-- The oracles for the two external collaborators whose return values the
agent consumes. The first argument is the invocation index, so an oracle can
answer differently on successive calls (external services are stateful). The
publish and commit services return nothing, so they appear only in the trace. -/
structure Services where
  runActionsResult : Nat → List String → ContextDict →
    Option (List (String × String)) → Nat → Option Bool → ContextDict
  diffResult : Nat → String

/-- The exceptions this fragment can raise. -/
inductive AgentError where
  | typeError (msg : String)
  | notImplementedError (msg : String)
deriving DecidableEq

/-- The `PlanAndCode` agent configuration, with the constructor defaults of
`PlanAndCode.__init__`. -/
structure PlanAndCode where
  planning_actions : List String := ["plan_pull_request", "request_more_information"]
  codegen_actions : List String := ["new_file", "edit_file"]
  max_codegen_iterations : Nat := 5

/-- An agent constructed with all constructor defaults. -/
def defaultAgent : PlanAndCode := {}

/-- Modelled from the spec: the issue-label event variant of the event model
(`autopr.models.events.IssueLabelEvent`), exposing `event.issue`. -/
structure IssueLabelEvent where
  issue : Issue
deriving DecidableEq

/-- Modelled from the spec: the event model `EventUnion` is a tagged union of
event kinds; this fragment only handles the issue-label variant, so every
other variant is collapsed into `other`, identified by its python type name. -/
inductive EventUnion where
  | issue_label (e : IssueLabelEvent)
  | other (pyType : String)

/-- `PlanAndCode.write_commit`: announce the commit section, stamp
`current_commit`, reset `action_history`, run the codegen actions
iteratively, fetch the diff, report success (with the diff as a code block)
or an empty-commit warning, then commit and push. Returns the updated
context; the emitted trace extends `tr` in source order. -/
def write_commit (ag : PlanAndCode) (svc : Services) (commit_plan : CommitPlan)
    (context : ContextDict) (context_headings : List (String × String))
    (tr : List Call) : ContextDict × List Call :=
  let context1 := ContextDict.set context "current_commit" (Value.commitPlan commit_plan)
  let context2 := ContextDict.set context1 "action_history" (Value.actionHistory [])
  let headings := [("current_commit", "Commit we are currently generating"),
                   ("action_history", "Actions that have been run so far")] ++ context_headings
  let context3 := svc.runActionsResult (nRunActions tr) ag.codegen_actions context2
      (some headings) ag.max_codegen_iterations (some true)
  let diff := svc.diffResult (nGetDiff tr)
  let report : List Call :=
    if diff ≠ "" then
      [Call.publishCodeBlock "Diff" diff "diff",
       Call.endSection ("✅ Committed " ++ commit_plan.commit_message)]
    else
      [Call.endSection ("⚠️ Empty commit " ++ commit_plan.commit_message)]
  (context3,
   tr ++ ([Call.startSection ("🔨 Writing commit " ++ commit_plan.commit_message),
           Call.runActions ag.codegen_actions context2 (some headings)
             ag.max_codegen_iterations (some true),
           Call.getDiff] ++ report ++ [Call.commit commit_plan.commit_message true]))

/-- The `for current_commit in pr_desc.commits` loop of
`create_pull_request`: invoke `write_commit` once per planned commit in plan
order, threading the returned context into the next call. -/
def writeCommits (ag : PlanAndCode) (svc : Services) (commits : List CommitPlan)
    (context : ContextDict) (context_headings : List (String × String))
    (tr : List Call) : ContextDict × List Call :=
  match commits with
  | [] => (context, tr)
  | cp :: rest =>
    let res := write_commit ag svc cp context context_headings tr
    writeCommits ag svc rest res.1 context_headings res.2

/-- The context handed to the planning actions: freshly initialized from the
event's issue payload. -/
def planningContext (event : IssueLabelEvent) : ContextDict :=
  [("issue", Value.issue event.issue)]

/-- The context returned by the planning invocation of
`run_actions_iteratively` (the first action-service call of the run, hence
invocation index `nRunActions [Call.overwriteNewBranch] = 0`). -/
def planningResult (ag : PlanAndCode) (svc : Services) (event : IssueLabelEvent) :
    ContextDict :=
  svc.runActionsResult (nRunActions [Call.overwriteNewBranch]) ag.planning_actions
    (planningContext event) none 1 none

/-- `PlanAndCode.create_pull_request`: create a fresh branch, initialize the
context from the issue, run the planning actions once, then either return
silently (no `pull_request_description` in context), raise a `TypeError`
(wrong type), or publish the description and write every planned commit.
Returns the trace of collaborator calls and the raised exception, if any. -/
def create_pull_request (ag : PlanAndCode) (svc : Services) (event : IssueLabelEvent) :
    List Call × Option AgentError :=
  let tr1 : List Call := [Call.overwriteNewBranch]
  let context := planningContext event
  let context1 := svc.runActionsResult (nRunActions tr1) ag.planning_actions context none 1 none
  let tr2 := tr1 ++ [Call.runActions ag.planning_actions context none 1 none]
  match ContextDict.get context1 "pull_request_description" with
  | none => (tr2, none)
  | some (Value.prDescription pr_desc) =>
    let tr3 := tr2 ++ [Call.setPrDescription pr_desc.title pr_desc.body]
    let res := writeCommits ag svc pr_desc.commits context1
        [("pull_request_description", "Plan for the pull request")] tr3
    (res.2, none)
  | some pr_desc =>
    (tr2, some (AgentError.typeError ("Actions returned a pull request description of type "
        ++ Value.pyTypeName pr_desc ++ " instead of PullRequestDescription")))

/-- `PlanAndCode.handle_event`: dispatch an issue-label event to
`create_pull_request`; raise `NotImplementedError` on any other event
variant, before any collaborator call. -/
def handle_event (ag : PlanAndCode) (svc : Services) (event : EventUnion) :
    List Call × Option AgentError :=
  match event with
  | .issue_label e => create_pull_request ag svc e
  | .other t => ([], some (AgentError.notImplementedError ("Event type " ++ t ++ " not supported")))

/-- A trace event that is a codegen invocation of the action service for the
planned commit `cp`: the codegen action set, the configured iteration bound,
`include_finished=True`, and a context whose `current_commit` is `cp` and
whose `action_history` has been reset to empty. -/
def IsCodegenCallFor (ag : PlanAndCode) (cp : CommitPlan) (c : Call) : Prop :=
  ∃ ctx hs, c = Call.runActions ag.codegen_actions ctx hs ag.max_codegen_iterations (some true)
    ∧ ContextDict.get ctx "current_commit" = some (Value.commitPlan cp)
    ∧ ContextDict.get ctx "action_history" = some (Value.actionHistory [])

/-- The planning invocation of the action service, as it appears in the
trace of `create_pull_request`: the planning action set against the fresh
issue context, with `max_iterations=1` and no further keyword arguments. -/
def planningCall (ag : PlanAndCode) (event : IssueLabelEvent) : Call :=
  Call.runActions ag.planning_actions (planningContext event) none 1 none

/-- The context-key headings `write_commit` passes to the action service:
its own two headings followed by the caller-supplied ones (python dict
merge; the keys are disjoint in every call site). -/
def codegenHeadings (context_headings : List (String × String)) :
    List (String × String) :=
  [("current_commit", "Commit we are currently generating"),
   ("action_history", "Actions that have been run so far")] ++ context_headings

/-- A concrete issue-label event for exercising the agent on concrete runs. -/
def evSample : IssueLabelEvent := ⟨⟨"sample issue"⟩⟩

/-- A service whose actions never touch the context (so planning leaves no
`pull_request_description`) and whose diff service always answers empty. -/
def svcNoPlan : Services := ⟨fun _ _ ctx _ _ _ => ctx, fun _ => ""⟩

/-- A one-commit plan entry. -/
def cpAddFoo : CommitPlan := ⟨"Add foo.py", ["foo.py"]⟩

/-- A second plan entry. -/
def cpFixBar : CommitPlan := ⟨"Fix bar.py", ["bar.py"]⟩

/-- A concrete planning result with a single planned commit. -/
def prdSample : PullRequestDescription :=
  ⟨"Add foo", "This pull request adds foo.", [cpAddFoo]⟩

/-- A service whose first action-service call (the planning call) stores
`prdSample` under `pull_request_description`, whose later calls leave the
context unchanged, and whose diff service always answers a non-empty diff. -/
def svcPlanned : Services :=
  ⟨fun k _ ctx _ _ _ =>
      if k = 0 then ContextDict.set ctx "pull_request_description" (Value.prDescription prdSample)
      else ctx,
   fun _ => "+ print(1)"⟩

/-- A service whose planning call stores a python `str` (a wrongly typed
value) under `pull_request_description`. -/
def svcWrongType : Services :=
  ⟨fun k _ ctx _ _ _ =>
      if k = 0 then ContextDict.set ctx "pull_request_description" (Value.other "str")
      else ctx,
   fun _ => ""⟩

/-- A concrete planning result with the two planned commits of the spec's
scenario. -/
def prdTwoCommits : PullRequestDescription :=
  ⟨"Add foo and fix bar", "Adds foo.py and fixes bar.py.", [cpAddFoo, cpFixBar]⟩

/-- The spec's scenario services: planning stores `prdTwoCommits`; the diff
service answers a non-empty diff on its first call (commit 1) and an empty
diff on its second (commit 2). -/
def svcTwoCommits : Services :=
  ⟨fun k _ ctx _ _ _ =>
      if k = 0 then
        ContextDict.set ctx "pull_request_description" (Value.prDescription prdTwoCommits)
      else ctx,
   fun k => if k = 0 then "+ def foo(): pass" else ""⟩

theorem ContextDict.get_set_self (c : ContextDict) (k : String) (v : Value) :
    ContextDict.get (ContextDict.set c k v) k = some v := by
  induction c with
  | nil => simp [ContextDict.get, ContextDict.set]
  | cons p rest ih =>
    obtain ⟨k', v'⟩ := p
    by_cases h : k' = k <;> simp [ContextDict.get, ContextDict.set, h, ih]

theorem ContextDict.get_set_ne (c : ContextDict) (k k2 : String) (v : Value)
    (h : k ≠ k2) : ContextDict.get (ContextDict.set c k v) k2 = ContextDict.get c k2 := by
  induction c with
  | nil => simp [ContextDict.get, ContextDict.set, h]
  | cons p rest ih =>
    obtain ⟨k', v'⟩ := p
    by_cases h' : k' = k
    · subst h'
      simp [ContextDict.get, ContextDict.set, h]
    · simp [ContextDict.get, ContextDict.set, h', ih]

/-- Trace shape of one `write_commit` invocation: it extends the incoming
trace by a block that publishes no PR description, touches no branch,
performs exactly one commit (the plan entry's message, pushed), and makes
exactly one action-service call, which is a codegen call for the plan
entry. -/
theorem write_commit_trace (ag : PlanAndCode) (svc : Services) (cp : CommitPlan)
    (ctx : ContextDict) (hs : List (String × String)) (tr : List Call) :
    ∃ δ, (write_commit ag svc cp ctx hs tr).2 = tr ++ δ
      ∧ δ.countP Call.isSetPrDescription = 0
      ∧ δ.countP Call.isOverwriteNewBranch = 0
      ∧ δ.filter Call.isCommit = [Call.commit cp.commit_message true]
      ∧ (∃ c, δ.filter Call.isRunActions = [c] ∧ IsCodegenCallFor ag cp c) := by
  have hcur : ContextDict.get
      (ContextDict.set (ContextDict.set ctx "current_commit" (Value.commitPlan cp))
        "action_history" (Value.actionHistory [])) "current_commit"
      = some (Value.commitPlan cp) := by
    rw [ContextDict.get_set_ne _ _ _ _ (by decide), ContextDict.get_set_self]
  have hhist : ContextDict.get
      (ContextDict.set (ContextDict.set ctx "current_commit" (Value.commitPlan cp))
        "action_history" (Value.actionHistory [])) "action_history"
      = some (Value.actionHistory []) := ContextDict.get_set_self _ _ _
  by_cases hd : svc.diffResult (nGetDiff tr) = ""
  · refine ⟨[Call.startSection ("🔨 Writing commit " ++ cp.commit_message),
      Call.runActions ag.codegen_actions
        (ContextDict.set (ContextDict.set ctx "current_commit" (Value.commitPlan cp))
          "action_history" (Value.actionHistory []))
        (some (codegenHeadings hs)) ag.max_codegen_iterations (some true),
      Call.getDiff,
      Call.endSection ("⚠️ Empty commit " ++ cp.commit_message),
      Call.commit cp.commit_message true],
      by simp [write_commit, codegenHeadings, hd],
      by simp [Call.isSetPrDescription],
      by simp [Call.isOverwriteNewBranch],
      by simp [Call.isCommit],
      ?_⟩
    refine ⟨Call.runActions ag.codegen_actions
        (ContextDict.set (ContextDict.set ctx "current_commit" (Value.commitPlan cp))
          "action_history" (Value.actionHistory []))
        (some (codegenHeadings hs)) ag.max_codegen_iterations (some true),
      by simp [Call.isRunActions], ?_⟩
    exact ⟨_, _, rfl, hcur, hhist⟩
  · refine ⟨[Call.startSection ("🔨 Writing commit " ++ cp.commit_message),
      Call.runActions ag.codegen_actions
        (ContextDict.set (ContextDict.set ctx "current_commit" (Value.commitPlan cp))
          "action_history" (Value.actionHistory []))
        (some (codegenHeadings hs)) ag.max_codegen_iterations (some true),
      Call.getDiff,
      Call.publishCodeBlock "Diff" (svc.diffResult (nGetDiff tr)) "diff",
      Call.endSection ("✅ Committed " ++ cp.commit_message),
      Call.commit cp.commit_message true],
      by simp [write_commit, codegenHeadings, hd],
      by simp [Call.isSetPrDescription],
      by simp [Call.isOverwriteNewBranch],
      by simp [Call.isCommit],
      ?_⟩
    refine ⟨Call.runActions ag.codegen_actions
        (ContextDict.set (ContextDict.set ctx "current_commit" (Value.commitPlan cp))
          "action_history" (Value.actionHistory []))
        (some (codegenHeadings hs)) ag.max_codegen_iterations (some true),
      by simp [Call.isRunActions], ?_⟩
    exact ⟨_, _, rfl, hcur, hhist⟩

/-- Trace shape of the commit loop: it extends the incoming trace by a block
that publishes no PR description, touches no branch, commits each planned
commit exactly once in plan order (always pushed), and whose action-service
calls are exactly one codegen call per planned commit, in plan order. -/
theorem writeCommits_trace (ag : PlanAndCode) (svc : Services) (cps : List CommitPlan) :
    ∀ ctx hs tr, ∃ δ, (writeCommits ag svc cps ctx hs tr).2 = tr ++ δ
      ∧ δ.countP Call.isSetPrDescription = 0
      ∧ δ.countP Call.isOverwriteNewBranch = 0
      ∧ δ.filter Call.isCommit = cps.map (fun cp => Call.commit cp.commit_message true)
      ∧ List.Forall₂ (IsCodegenCallFor ag) cps (δ.filter Call.isRunActions)
      ∧ (∀ c ∈ δ.filter Call.isRunActions, ∃ cp, IsCodegenCallFor ag cp c) := by
  induction cps with
  | nil =>
    intro ctx hs tr
    exact ⟨[], by simp [writeCommits], by simp, by simp, by simp, by simp, by simp⟩
  | cons cp rest ih =>
    intro ctx hs tr
    obtain ⟨δ₁, h1, h2, h3, h4, c, hc1, hc2⟩ := write_commit_trace ag svc cp ctx hs tr
    obtain ⟨δ₂, g1, g2, g3, g4, g5, g6⟩ :=
      ih (write_commit ag svc cp ctx hs tr).1 hs (write_commit ag svc cp ctx hs tr).2
    refine ⟨δ₁ ++ δ₂, ?_, ?_, ?_, ?_, ?_, ?_⟩
    · rw [writeCommits, g1, h1, List.append_assoc]
    · simp [List.countP_append, h2, g2]
    · simp [List.countP_append, h3, g3]
    · simp [List.filter_append, h4, g4]
    · rw [List.filter_append, hc1]
      exact List.Forall₂.cons hc2 g5
    · intro c2 hmem
      rw [List.filter_append, hc1] at hmem
      rcases List.mem_append.mp hmem with hl | hr
      · obtain rfl : c2 = c := List.mem_singleton.mp hl
        exact ⟨cp, hc2⟩
      · exact g6 c2 hr

/-- Evaluation of `create_pull_request` when the planning stage left no
`pull_request_description` in the context: silent return after the branch
creation and the single planning call. -/
theorem create_pull_request_of_none (ag : PlanAndCode) (svc : Services)
    (event : IssueLabelEvent)
    (h : ContextDict.get (planningResult ag svc event) "pull_request_description" = none) :
    create_pull_request ag svc event
      = ([Call.overwriteNewBranch, planningCall ag event], none) := by
  simp only [create_pull_request, planningCall]
  rw [show svc.runActionsResult (nRunActions [Call.overwriteNewBranch]) ag.planning_actions
      (planningContext event) none 1 none = planningResult ag svc event from rfl, h]
  rfl

/-- Evaluation of `create_pull_request` when the planning stage produced a
well-typed description: publish it, then run the commit loop. -/
theorem create_pull_request_of_description (ag : PlanAndCode) (svc : Services)
    (event : IssueLabelEvent) (d : PullRequestDescription)
    (h : ContextDict.get (planningResult ag svc event) "pull_request_description"
      = some (Value.prDescription d)) :
    create_pull_request ag svc event
      = ((writeCommits ag svc d.commits (planningResult ag svc event)
            [("pull_request_description", "Plan for the pull request")]
            [Call.overwriteNewBranch, planningCall ag event,
             Call.setPrDescription d.title d.body]).2, none) := by
  simp only [create_pull_request, planningCall]
  rw [show svc.runActionsResult (nRunActions [Call.overwriteNewBranch]) ag.planning_actions
      (planningContext event) none 1 none = planningResult ag svc event from rfl, h]
  rfl

/-- Evaluation of `create_pull_request` when the planning stage stored a
value of the wrong type under `pull_request_description`: raise a
`TypeError` naming the actual and the expected type, with no publish and no
commit in the trace. -/
theorem create_pull_request_of_wrong_type (ag : PlanAndCode) (svc : Services)
    (event : IssueLabelEvent) (v : Value)
    (h : ContextDict.get (planningResult ag svc event) "pull_request_description" = some v)
    (hv : ∀ d, v ≠ Value.prDescription d) :
    create_pull_request ag svc event
      = ([Call.overwriteNewBranch, planningCall ag event],
         some (AgentError.typeError ("Actions returned a pull request description of type "
           ++ Value.pyTypeName v ++ " instead of PullRequestDescription"))) := by
  simp only [create_pull_request, planningCall]
  rw [show svc.runActionsResult (nRunActions [Call.overwriteNewBranch]) ag.planning_actions
      (planningContext event) none 1 none = planningResult ag svc event from rfl, h]
  cases v with
  | prDescription d => exact absurd rfl (hv d)
  | issue i => rfl
  | commitPlan c => rfl
  | actionHistory entries => rfl
  | other t => rfl

/-- C1: for every issue-labeled event whose planning stage leaves no
`pull_request_description` key in the context, `create_pull_request` returns
normally (raises nothing), its trace is exactly the branch creation followed
by the single planning call — so `write_commit` is never entered — and in
particular `commit_service.commit` is never called. -/
theorem C1_no_description_silent_abort (ag : PlanAndCode) (svc : Services)
    (event : IssueLabelEvent)
    (h : ContextDict.get (planningResult ag svc event) "pull_request_description" = none) :
    (create_pull_request ag svc event).2 = none
      ∧ (create_pull_request ag svc event).1
          = [Call.overwriteNewBranch, planningCall ag event]
      ∧ (create_pull_request ag svc event).1.countP Call.isCommit = 0 := by
  rw [create_pull_request_of_none ag svc event h]
  exact ⟨rfl, rfl, by simp [Call.isCommit, planningCall]⟩

/-- Witness for C1: on the service whose actions never touch the context,
the planning stage leaves no description and the run aborts silently with
no commit call. -/
theorem C1_witness :
    ContextDict.get (planningResult defaultAgent svcNoPlan evSample)
        "pull_request_description" = none
      ∧ ((create_pull_request defaultAgent svcNoPlan evSample).2 = none
      ∧ (create_pull_request defaultAgent svcNoPlan evSample).1
          = [Call.overwriteNewBranch, planningCall defaultAgent evSample]
      ∧ (create_pull_request defaultAgent svcNoPlan evSample).1.countP Call.isCommit = 0) :=
  ⟨by decide, C1_no_description_silent_abort defaultAgent svcNoPlan evSample (by decide)⟩

/-- C4: for every `write_commit` invocation where the diff service answers
an empty diff after codegen, the emitted block still ends with
`commit(message, push=True)` for the plan entry's message, and the report
closing the section is the warning `⚠️ Empty commit <message>`; no success
report occurs (the trace is exactly the five calls below). -/
theorem C4_empty_diff_warns_and_still_commits (ag : PlanAndCode) (svc : Services)
    (cp : CommitPlan) (ctx : ContextDict) (hs : List (String × String)) (tr : List Call)
    (h : svc.diffResult (nGetDiff tr) = "") :
    (write_commit ag svc cp ctx hs tr).2
      = tr ++ [Call.startSection ("🔨 Writing commit " ++ cp.commit_message),
               Call.runActions ag.codegen_actions
                 (ContextDict.set (ContextDict.set ctx "current_commit" (Value.commitPlan cp))
                   "action_history" (Value.actionHistory []))
                 (some (codegenHeadings hs)) ag.max_codegen_iterations (some true),
               Call.getDiff,
               Call.endSection ("⚠️ Empty commit " ++ cp.commit_message),
               Call.commit cp.commit_message true] := by
  simp [write_commit, codegenHeadings, h]

/-- Witness for C4: an empty diff on a concrete invocation still produces
the commit call, reported as an empty-commit warning. -/
theorem C4_witness :
    svcNoPlan.diffResult (nGetDiff []) = ""
      ∧ (write_commit defaultAgent svcNoPlan cpAddFoo [] [] []).2
        = [] ++ [Call.startSection ("🔨 Writing commit " ++ cpAddFoo.commit_message),
               Call.runActions defaultAgent.codegen_actions
                 (ContextDict.set (ContextDict.set [] "current_commit" (Value.commitPlan cpAddFoo))
                   "action_history" (Value.actionHistory []))
                 (some (codegenHeadings [])) defaultAgent.max_codegen_iterations (some true),
               Call.getDiff,
               Call.endSection ("⚠️ Empty commit " ++ cpAddFoo.commit_message),
               Call.commit cpAddFoo.commit_message true] :=
  ⟨rfl, C4_empty_diff_warns_and_still_commits defaultAgent svcNoPlan cpAddFoo [] [] [] rfl⟩

/-- C5: for every `write_commit` invocation where the diff service answers a
non-empty diff after codegen, the diff is published as a code block
immediately before the success report `✅ Committed <message>` is emitted;
both are emitted inside the round opened as `🔨 Writing commit <message>`
and closed by the same `commit_plan.commit_message`, i.e. the code block and
the success report belong to the same commit message text. -/
theorem C5_code_block_published_before_success (ag : PlanAndCode) (svc : Services)
    (cp : CommitPlan) (ctx : ContextDict) (hs : List (String × String)) (tr : List Call)
    (h : svc.diffResult (nGetDiff tr) ≠ "") :
    (write_commit ag svc cp ctx hs tr).2
      = tr ++ [Call.startSection ("🔨 Writing commit " ++ cp.commit_message),
               Call.runActions ag.codegen_actions
                 (ContextDict.set (ContextDict.set ctx "current_commit" (Value.commitPlan cp))
                   "action_history" (Value.actionHistory []))
                 (some (codegenHeadings hs)) ag.max_codegen_iterations (some true),
               Call.getDiff,
               Call.publishCodeBlock "Diff" (svc.diffResult (nGetDiff tr)) "diff",
               Call.endSection ("✅ Committed " ++ cp.commit_message),
               Call.commit cp.commit_message true] := by
  simp [write_commit, codegenHeadings, h]

/-- Witness for C5: a non-empty diff on a concrete invocation publishes the
code block, then the success report for the same commit message. -/
theorem C5_witness :
    svcPlanned.diffResult (nGetDiff []) ≠ ""
      ∧ (write_commit defaultAgent svcPlanned cpAddFoo [] [] []).2
        = [] ++ [Call.startSection ("🔨 Writing commit " ++ cpAddFoo.commit_message),
               Call.runActions defaultAgent.codegen_actions
                 (ContextDict.set (ContextDict.set [] "current_commit" (Value.commitPlan cpAddFoo))
                   "action_history" (Value.actionHistory []))
                 (some (codegenHeadings [])) defaultAgent.max_codegen_iterations (some true),
               Call.getDiff,
               Call.publishCodeBlock "Diff" (svcPlanned.diffResult (nGetDiff [])) "diff",
               Call.endSection ("✅ Committed " ++ cpAddFoo.commit_message),
               Call.commit cpAddFoo.commit_message true] :=
  ⟨by decide, C5_code_block_published_before_success defaultAgent svcPlanned cpAddFoo [] [] []
    (by decide)⟩

/-- C6: for every event that is not an issue-labeled event, `handle_event`
raises `NotImplementedError` naming the event type, and its trace is empty:
no action execution (`run_actions_iteratively`) and no branch or commit side
effect occurs before the raise. -/
theorem C6_non_issue_event_raises_immediately (ag : PlanAndCode) (svc : Services)
    (t : String) :
    handle_event ag svc (EventUnion.other t)
      = ([], some (AgentError.notImplementedError ("Event type " ++ t ++ " not supported"))) :=
  rfl

/-- C7: for every issue-labeled event where planning stores a value of the
wrong type under `pull_request_description`, `create_pull_request` raises a
`TypeError` whose message names the actual type and the expected
`PullRequestDescription`, and its trace is exactly the branch creation plus
the planning call: no PR description is published and no commit is written. -/
theorem C7_wrong_type_raises_type_error (ag : PlanAndCode) (svc : Services)
    (event : IssueLabelEvent) (v : Value)
    (hget : ContextDict.get (planningResult ag svc event) "pull_request_description" = some v)
    (hv : ∀ d, v ≠ Value.prDescription d) :
    create_pull_request ag svc event
      = ([Call.overwriteNewBranch, planningCall ag event],
         some (AgentError.typeError ("Actions returned a pull request description of type "
           ++ Value.pyTypeName v ++ " instead of PullRequestDescription"))) :=
  create_pull_request_of_wrong_type ag svc event v hget hv

/-- Witness for C7: a planning stage that stores a python `str` makes the
run raise the descriptive `TypeError` after only branch creation and
planning. -/
theorem C7_witness :
    ContextDict.get (planningResult defaultAgent svcWrongType evSample)
        "pull_request_description" = some (Value.other "str")
      ∧ create_pull_request defaultAgent svcWrongType evSample
        = ([Call.overwriteNewBranch, planningCall defaultAgent evSample],
           some (AgentError.typeError ("Actions returned a pull request description of type "
             ++ Value.pyTypeName (Value.other "str") ++ " instead of PullRequestDescription"))) :=
  ⟨by decide, C7_wrong_type_raises_type_error defaultAgent svcWrongType evSample
    (Value.other "str") (by decide) (fun _ h => Value.noConfusion h)⟩

/-- C2: for every issue-labeled event where planning places a well-typed
`PullRequestDescription` in the context, the trace of `create_pull_request`
is branch creation, the planning call, then exactly one
`set_pr_description` call carrying that description's title and body;
everything emitted afterwards — in particular every `write_commit` block and
every commit call — comes after that publish call, and no second
`set_pr_description` ever occurs. -/
theorem C2_description_published_once_before_commits (ag : PlanAndCode) (svc : Services)
    (event : IssueLabelEvent) (d : PullRequestDescription)
    (h : ContextDict.get (planningResult ag svc event) "pull_request_description"
      = some (Value.prDescription d)) :
    ∃ post,
      (create_pull_request ag svc event).1
        = [Call.overwriteNewBranch, planningCall ag event,
           Call.setPrDescription d.title d.body] ++ post
      ∧ post.countP Call.isSetPrDescription = 0
      ∧ (create_pull_request ag svc event).1.countP Call.isSetPrDescription = 1 := by
  obtain ⟨δ, h1, h2, h3, h4, h5, h6⟩ := writeCommits_trace ag svc d.commits
    (planningResult ag svc event) [("pull_request_description", "Plan for the pull request")]
    [Call.overwriteNewBranch, planningCall ag event, Call.setPrDescription d.title d.body]
  rw [create_pull_request_of_description ag svc event d h, h1]
  refine ⟨δ, rfl, h2, ?_⟩
  simp [List.countP_append, h2, Call.isSetPrDescription, planningCall]

/-- Witness for C2: on the concrete planned service the description of
`prdSample` is published exactly once, right after planning. -/
theorem C2_witness :
    ContextDict.get (planningResult defaultAgent svcPlanned evSample)
        "pull_request_description" = some (Value.prDescription prdSample)
      ∧ ∃ post,
        (create_pull_request defaultAgent svcPlanned evSample).1
          = [Call.overwriteNewBranch, planningCall defaultAgent evSample,
             Call.setPrDescription prdSample.title prdSample.body] ++ post
        ∧ post.countP Call.isSetPrDescription = 0
        ∧ (create_pull_request defaultAgent svcPlanned evSample).1.countP
            Call.isSetPrDescription = 1 :=
  ⟨by decide, C2_description_published_once_before_commits defaultAgent svcPlanned evSample
    prdSample (by decide)⟩

/-- C3: for every issue-labeled event whose planning stage produced the
description `d` with N planned commits, the trace of `create_pull_request`
contains, besides the single planning call, exactly N codegen invocations of
the action service — one per planned commit, in plan order — and each of
those invocations is handed a context whose `current_commit` is that commit
and whose `action_history` has been reset to the empty list before any
codegen action runs; correspondingly the commit service is invoked exactly
once per planned commit, in plan order. -/
theorem C3_commit_writer_once_per_commit_in_order (ag : PlanAndCode) (svc : Services)
    (event : IssueLabelEvent) (d : PullRequestDescription)
    (h : ContextDict.get (planningResult ag svc event) "pull_request_description"
      = some (Value.prDescription d)) :
    ∃ l, (create_pull_request ag svc event).1.filter Call.isRunActions
        = planningCall ag event :: l
      ∧ List.Forall₂ (IsCodegenCallFor ag) d.commits l
      ∧ (create_pull_request ag svc event).1.filter Call.isCommit
        = d.commits.map (fun cp => Call.commit cp.commit_message true) := by
  obtain ⟨δ, h1, h2, h3, h4, h5, h6⟩ := writeCommits_trace ag svc d.commits
    (planningResult ag svc event) [("pull_request_description", "Plan for the pull request")]
    [Call.overwriteNewBranch, planningCall ag event, Call.setPrDescription d.title d.body]
  rw [create_pull_request_of_description ag svc event d h, h1]
  refine ⟨δ.filter Call.isRunActions, ?_, h5, ?_⟩
  · rw [show ((([Call.overwriteNewBranch, planningCall ag event,
        Call.setPrDescription d.title d.body] ++ δ), (none : Option AgentError)).1 : List Call)
        = [Call.overwriteNewBranch, planningCall ag event,
           Call.setPrDescription d.title d.body] ++ δ from rfl,
      List.filter_append]
    simp [Call.isRunActions, planningCall]
  · rw [show ((([Call.overwriteNewBranch, planningCall ag event,
        Call.setPrDescription d.title d.body] ++ δ), (none : Option AgentError)).1 : List Call)
        = [Call.overwriteNewBranch, planningCall ag event,
           Call.setPrDescription d.title d.body] ++ δ from rfl,
      List.filter_append, h4]
    simp [Call.isCommit, planningCall]

/-- Witness for C3: on the concrete planned service, the single planned
commit of `prdSample` produces exactly one codegen invocation with
`current_commit` stamped and `action_history` reset, and one commit call. -/
theorem C3_witness :
    ContextDict.get (planningResult defaultAgent svcPlanned evSample)
        "pull_request_description" = some (Value.prDescription prdSample)
      ∧ ∃ l, (create_pull_request defaultAgent svcPlanned evSample).1.filter Call.isRunActions
          = planningCall defaultAgent evSample :: l
        ∧ List.Forall₂ (IsCodegenCallFor defaultAgent) prdSample.commits l
        ∧ (create_pull_request defaultAgent svcPlanned evSample).1.filter Call.isCommit
          = prdSample.commits.map (fun cp => Call.commit cp.commit_message true) :=
  ⟨by decide, C3_commit_writer_once_per_commit_in_order defaultAgent svcPlanned evSample
    prdSample (by decide)⟩

/-- C8: in every run of `create_pull_request`, the planning invocation of
`run_actions_iteratively` is the first action-service call and uses
`max_iterations=1` (with no extra keyword arguments), and every further
action-service call — the codegen invocations — uses
`max_iterations = max_codegen_iterations` together with
`include_finished=True`; the constructor default of
`max_codegen_iterations` is 5. -/
theorem C8_iteration_bounds (ag : PlanAndCode) (svc : Services) (event : IssueLabelEvent) :
    (∃ l, (create_pull_request ag svc event).1.filter Call.isRunActions
        = Call.runActions ag.planning_actions (planningContext event) none 1 none :: l
      ∧ ∀ c ∈ l, ∃ ctx hs, c = Call.runActions ag.codegen_actions ctx hs
          ag.max_codegen_iterations (some true))
    ∧ defaultAgent.max_codegen_iterations = 5 := by
  refine ⟨?_, rfl⟩
  cases hm : ContextDict.get (planningResult ag svc event) "pull_request_description" with
  | none =>
    rw [create_pull_request_of_none ag svc event hm]
    exact ⟨[], by simp [Call.isRunActions, planningCall], by simp⟩
  | some v =>
    cases v with
    | prDescription d =>
      obtain ⟨δ, h1, h2, h3, h4, h5, h6⟩ := writeCommits_trace ag svc d.commits
        (planningResult ag svc event)
        [("pull_request_description", "Plan for the pull request")]
        [Call.overwriteNewBranch, planningCall ag event, Call.setPrDescription d.title d.body]
      rw [create_pull_request_of_description ag svc event d hm, h1]
      refine ⟨δ.filter Call.isRunActions, ?_, ?_⟩
      · rw [show ((([Call.overwriteNewBranch, planningCall ag event,
            Call.setPrDescription d.title d.body] ++ δ), (none : Option AgentError)).1
            : List Call)
            = [Call.overwriteNewBranch, planningCall ag event,
               Call.setPrDescription d.title d.body] ++ δ from rfl,
          List.filter_append]
        simp [Call.isRunActions, planningCall]
      · intro c hc
        obtain ⟨cp, ctx, hs, hceq, hc1, hc2⟩ := h6 c hc
        exact ⟨ctx, hs, hceq⟩
    | issue i =>
      rw [create_pull_request_of_wrong_type ag svc event _ hm (fun _ h => Value.noConfusion h)]
      exact ⟨[], by simp [Call.isRunActions, planningCall], by simp⟩
    | commitPlan c =>
      rw [create_pull_request_of_wrong_type ag svc event _ hm (fun _ h => Value.noConfusion h)]
      exact ⟨[], by simp [Call.isRunActions, planningCall], by simp⟩
    | actionHistory entries =>
      rw [create_pull_request_of_wrong_type ag svc event _ hm (fun _ h => Value.noConfusion h)]
      exact ⟨[], by simp [Call.isRunActions, planningCall], by simp⟩
    | other t =>
      rw [create_pull_request_of_wrong_type ag svc event _ hm (fun _ h => Value.noConfusion h)]
      exact ⟨[], by simp [Call.isRunActions, planningCall], by simp⟩

/-- C10: in every run of `create_pull_request` — whether it ends in the
silent abort, the wrong-type `TypeError`, or the full commit loop — the very
first collaborator call is `overwrite_new_branch`, it precedes the planning
call (and hence every planning action), and it is never invoked again. -/
theorem C10_branch_overwritten_first_exactly_once (ag : PlanAndCode) (svc : Services)
    (event : IssueLabelEvent) :
    ∃ rest, (create_pull_request ag svc event).1
        = [Call.overwriteNewBranch, planningCall ag event] ++ rest
      ∧ rest.countP Call.isOverwriteNewBranch = 0 := by
  cases hm : ContextDict.get (planningResult ag svc event) "pull_request_description" with
  | none =>
    rw [create_pull_request_of_none ag svc event hm]
    exact ⟨[], rfl, rfl⟩
  | some v =>
    cases v with
    | prDescription d =>
      obtain ⟨δ, h1, h2, h3, h4, h5, h6⟩ := writeCommits_trace ag svc d.commits
        (planningResult ag svc event)
        [("pull_request_description", "Plan for the pull request")]
        [Call.overwriteNewBranch, planningCall ag event, Call.setPrDescription d.title d.body]
      rw [create_pull_request_of_description ag svc event d hm, h1]
      refine ⟨Call.setPrDescription d.title d.body :: δ, rfl, ?_⟩
      simp [List.countP_cons, h3, Call.isOverwriteNewBranch]
    | issue i =>
      rw [create_pull_request_of_wrong_type ag svc event _ hm (fun _ h => Value.noConfusion h)]
      exact ⟨[], rfl, rfl⟩
    | commitPlan c =>
      rw [create_pull_request_of_wrong_type ag svc event _ hm (fun _ h => Value.noConfusion h)]
      exact ⟨[], rfl, rfl⟩
    | actionHistory entries =>
      rw [create_pull_request_of_wrong_type ag svc event _ hm (fun _ h => Value.noConfusion h)]
      exact ⟨[], rfl, rfl⟩
    | other t =>
      rw [create_pull_request_of_wrong_type ag svc event _ hm (fun _ h => Value.noConfusion h)]
      exact ⟨[], rfl, rfl⟩

/-- C9: in the spec's scenario — a plan with exactly the two commits
`["Add foo.py", "Fix bar.py"]`, codegen for the first yielding a non-empty
diff and for the second an empty diff — the run performs exactly two
commit-and-push calls, one per planned commit in order, emits exactly one
`✅ Committed Add foo.py` report and exactly one
`⚠️ Empty commit Fix bar.py` report, and the success report precedes the
warning report in the trace. -/
theorem C9_two_commit_scenario :
    ((handle_event defaultAgent svcTwoCommits (EventUnion.issue_label evSample)).1.filter
        Call.isCommit
      = [Call.commit "Add foo.py" true, Call.commit "Fix bar.py" true])
    ∧ (handle_event defaultAgent svcTwoCommits (EventUnion.issue_label evSample)).1.countP
        (fun c => c == Call.endSection "✅ Committed Add foo.py") = 1
    ∧ (handle_event defaultAgent svcTwoCommits (EventUnion.issue_label evSample)).1.countP
        (fun c => c == Call.endSection "⚠️ Empty commit Fix bar.py") = 1
    ∧ (handle_event defaultAgent svcTwoCommits (EventUnion.issue_label evSample)).1.indexOf
          (Call.endSection "✅ Committed Add foo.py")
        < (handle_event defaultAgent svcTwoCommits (EventUnion.issue_label evSample)).1.indexOf
          (Call.endSection "⚠️ Empty commit Fix bar.py") := by
  decide
